import Mathlib

/-!
# bub: RDS instance discovery, selection and tunnelled client session

A shallow embedding of `cmd/rds.go`.

Go strings are modelled by Lean strings and read through their character
lists.  On valid UTF-8 text the operations the program uses agree with their
byte-wise Go originals: equality, `strings.HasPrefix`, `strings.Contains`,
`strings.Split` on a one-byte separator, and the ordering `<` (the UTF-8
encoding preserves code point order).  `len` is the UTF-8 byte size.

`log.Fatal`/`log.Fatalf` end the process; a failed slice index ends it with a
run-time panic.  Both are modelled as the error side of `Except`.
-/

namespace Bub

/-! ## Standard library: package strings -/

namespace strings

/-- Go `strings.HasPrefix(s, p)`. -/
def HasPrefix (s p : String) : Bool :=
  p.data.isPrefixOf s.data

/-- Scan of `strings.Index`: is `sub` a prefix of some suffix of the text. -/
def containsFrom (sub : List Char) : List Char → Bool
  | [] => sub.isPrefixOf []
  | c :: cs => sub.isPrefixOf (c :: cs) || containsFrom sub cs

/-- Go `strings.Contains(s, substr)`, that is `strings.Index(s, substr) >= 0`. -/
def Contains (s substr : String) : Bool :=
  containsFrom substr.data s.data

/-- Scan of `strings.Split` for a one-byte separator; `cur` is the segment
being read, most recent character first. -/
def splitFrom (sep : Char) : List Char → List Char → List String
  | [], cur => [String.mk cur.reverse]
  | c :: cs, cur =>
    if c = sep then String.mk cur.reverse :: splitFrom sep cs []
    else splitFrom sep cs (c :: cur)

/-- Go `strings.Split(s, sep)` for a separator of one byte (the program only
splits on "-" and on "."). -/
def Split (s : String) (sep : Char) : List String :=
  splitFrom sep s.data []

/-- Go `strings.Join(xs, sep)`. -/
def Join (xs : List String) (sep : String) : String :=
  sep.intercalate xs

end strings

/-- Go `len(s)` of a string: its size in bytes. -/
def len (s : String) : Nat := s.utf8ByteSize

/-! ## Process termination -/

deriving instance DecidableEq for Except

/-- The two ways a call ends the process instead of returning. -/
inductive Abort where
  /-- `log.Fatal`, `log.Fatalf`: message logged, exit status 1. -/
  | fatal (msg : String)
  /-- Go run-time panic (index out of range, nil dereference). -/
  | panic (msg : String)
  deriving DecidableEq, Repr

/-! ## Configuration records

The declarations of `Configuration`, `Environment` and `RDSConfiguration` live
in another file of the repository; the fields below are the ones `rds.go`
reads. -/

/-- One `{prefix, jump_host}` entry of `cfg.AWS.Environments`. -/
structure Environment where
  Prefix : String
  Jumphost : String
  deriving DecidableEq, Repr

/-- One profile of `cfg.AWS.RDS`. -/
structure RDSConfiguration where
  Prefix : String
  Database : String
  User : String
  Password : String
  deriving DecidableEq, Repr

/-- The part of `Configuration.AWS` that `rds.go` reads. -/
structure Configuration where
  Regions : List String
  Environments : List Environment
  RDS : List RDSConfiguration
  deriving Repr

/-- Go `EngineConfiguration`. -/
structure EngineConfiguration where
  Port : Nat
  Command : String
  CommandAlt : String
  deriving DecidableEq, Repr

/-- The fields of the SDK record `rds.DBInstance` that the program reads:
`*Endpoint.Address` and `*Engine`, both present. -/
structure DBInstance where
  Address : String
  Engine : String
  deriving DecidableEq, Repr

/-! ## Environment resolver -/

/-- Go `getRDSConfig` over the profile list `r.cfg.AWS.RDS`. -/
def getRDSConfig : List RDSConfiguration → String → Except Abort RDSConfiguration
  | [], endpoint =>
    .error (.fatal ("No RDS Configuration found for " ++ endpoint ++
      ", please check your configuration. Run \x27bub config\x27."))
  | i :: rest, endpoint =>
    if strings.HasPrefix endpoint i.Prefix then
      if i.Database = "" then
        match (strings.Split endpoint '-')[1]? with
        | none => .error (.panic "index out of range [1] with length 1")
        | some segments =>
          if len segments > 1 then
            match (strings.Split segments '.')[0]? with
            | none => .error (.panic "index out of range [0] with length 0")
            | some db => .ok { i with Database := db }
          else .ok i
      else .ok i
    else getRDSConfig rest endpoint

/-- Go `getEnvironment` over the entry list `r.cfg.AWS.Environments`. -/
def getEnvironment : List Environment → String → Except Abort Environment
  | [], endpoint =>
    .error (.fatal ("No environment matched " ++ endpoint ++
      ", please check your configuration. Run \x27bub config\x27."))
  | i :: rest, endpoint =>
    if strings.HasPrefix endpoint i.Prefix then .ok i
    else getEnvironment rest endpoint

/-- Go `getEngineConfiguration`. -/
def getEngineConfiguration (engine : String) : EngineConfiguration :=
  if engine = "mysql" then ⟨3306, "mycli", "mysql"⟩
  else ⟨5432, "pgcli", "psql"⟩

/-! ## Instance directory -/

/-- Go `DBInstances.Less`, on the two records at the indices it is given:
`*e[i].Endpoint.Address < *e[j].Endpoint.Address`. -/
def DBInstances.Less (x y : DBInstance) : Bool :=
  decide (x.Address.data < y.Address.data)

/-- Inner loop of the library's `insertionSort`,
`for j := i; j > a && data.Less(j, j-1); j-- { data.Swap(j, j-1) }`:
the record `x` moves left past every neighbour it is `Less` than.  The sorted
part on its left is held nearest neighbour first. -/
def sink (x : DBInstance) : List DBInstance → List DBInstance
  | [] => [x]
  | y :: ys => if DBInstances.Less x y then y :: sink x ys else x :: y :: ys

/-- Outer loop of the library's `insertionSort`, `for i := a + 1; i < b; i++`;
`done` is the sorted part, last position first. -/
def insertionSortFrom (done : List DBInstance) : List DBInstance → List DBInstance
  | [] => done.reverse
  | x :: rest => insertionSortFrom (sink x done) rest

/-- The library's `insertionSort(data, 0, data.Len())` through the `Less` and
`Swap` of `DBInstances`.  It is what `sort.Sort` runs on a slice of at most
twelve records. -/
def insertionSort (instances : List DBInstance) : List DBInstance :=
  insertionSortFrom [] instances

/-- What `sort.Sort` promises of its result for every slice length: the same
records, reordered so that no record is `Less` than one placed before it.  The
library does not promise stability. -/
structure SortContract (sortSort : List DBInstance → List DBInstance) : Prop where
  perm : ∀ l, (sortSort l).Perm l
  ordered : ∀ l, (sortSort l).Pairwise (fun a b => DBInstances.Less b a = false)

/-- Body of a region worker after its query returned: the rows of the response
whose address contains the filter (`rds.go` lines 55-60). -/
def filterRows (filter : String) (resp : List DBInstance) : List DBInstance :=
  resp.filter (fun i => strings.Contains i.Address filter)

/-- The collector loop, `instances = append(instances, <-channel...)`, over
the row lists in the order they arrive on the channel. -/
def collect (arrivals : List (List DBInstance)) : List DBInstance :=
  arrivals.foldl (fun instances rows => instances ++ rows) []

/-- Discovery: the regions replied with `replies`, listed in the order their
filtered rows reached the collector; the merged list is then sorted by
`sortSort`, the library's `sort.Sort`. -/
def discover (sortSort : List DBInstance → List DBInstance) (filter : String)
    (replies : List (List DBInstance)) : List DBInstance :=
  sortSort (collect (replies.map (filterRows filter)))

/-! ## Events of a run -/

/-- Item shown by the picker, the local type `rdsInstance` of
`pickRDSInstance`. -/
structure rdsInstance where
  Name : String
  Address : String
  Engine : String
  deriving DecidableEq, Repr

/-- Observable actions of one invocation, in the order performed. -/
inductive Event where
  /-- `prompt.Run()` on the listed items. -/
  | promptRun (items : List rdsInstance)
  /-- `exec.Command("ssh", "-NL", tunnelPath, jump).Start()`. -/
  | tunnelStart (tunnelPath jump : String)
  /-- `time.Sleep(100 * time.Millisecond)`. -/
  | sleep
  /-- `net.Dial("tcp", "127.0.0.1:<port>")`. -/
  | dial (port : Nat)
  /-- `exec.LookPath(file)`. -/
  | lookPath (file : String)
  /-- `print(s)` of a terminal escape sequence. -/
  | print (s : String)
  /-- `exec.Command(command, args...).Run()` with `cmd.Env = env`. -/
  | run (command : String) (args env : List String)
  /-- `tunnel.Process.Kill()`. -/
  | kill
  deriving DecidableEq, Repr

/-- Answers of everything outside the program during one invocation. -/
structure World where
  /-- Value returned by `random(40000, 60000)`. -/
  random : Nat
  /-- Error of `tunnel.Start()`, if it fails. -/
  startErr : Option String
  /-- Whether the n-th `net.Dial` of the readiness loop connects. -/
  dial : Nat → Bool
  /-- Result of `exec.LookPath`: the path found, if any. -/
  lookPath : String → Option String
  /-- Error of `cmd.Run()`, if the client fails. -/
  runErr : Option String
  /-- Result of `os.Getenv`. -/
  getenv : String → String
  /-- Result of `prompt.Run()`: chosen index and error. -/
  promptRun : List rdsInstance → Nat × Option String

/-- How an invocation ends. -/
inductive Outcome where
  /-- The function returned. -/
  | returned
  /-- The process ended through `log.Fatal` or a panic. -/
  | aborted (a : Abort)
  /-- Still inside the readiness loop after the allotted number of polls. -/
  | waiting
  deriving DecidableEq, Repr

/-! ## Instance selector -/

/-- The first loop of `pickRDSInstance`: one picker item per instance, named
by the part of the address before its first ".". -/
def pickerItems (instances : List DBInstance) : List rdsInstance :=
  instances.map (fun inst =>
    { Name := ((strings.Split inst.Address '.')[0]?).getD "",
      Address := inst.Address, Engine := inst.Engine })

/-- Go `pickRDSInstance`: builds the picker items, runs the picker and returns
`instances[i], err`.  The index expression is evaluated whether or not `err`
is set. -/
def pickRDSInstance (w : World) (instances : List DBInstance) :
    List Event × Except Abort (DBInstance × Option String) :=
  let rdsInstances := pickerItems instances
  let r := w.promptRun rdsInstances
  match instances[r.1]? with
  | none => ([.promptRun rdsInstances], .error (.panic "index out of range"))
  | some inst => ([.promptRun rdsInstances], .ok (inst, r.2))

/-- Selection in `ConnectToRDSInstance` (`rds.go` lines 73-84): the events it
performs and the instance `connectToRDSInstance` is then called with. -/
def selectInstance (w : World) (instances : List DBInstance) :
    List Event × Except Abort DBInstance :=
  if instances.length = 0 then
    ([], .error (.fatal "No instances found."))
  else if instances.length = 1 then
    match instances[0]? with
    | none => ([], .error (.panic "index out of range [0] with length 0"))
    | some inst => ([], .ok inst)
  else
    match pickRDSInstance w instances with
    | (t, .error a) => (t, .error a)
    | (t, .ok (_, some err)) => (t, .error (.fatal ("Failed to pick instance: " ++ err)))
    | (t, .ok (inst, none)) => (t, .ok inst)

/-! ## Tunnel manager and session runner -/

/-- Go `setBackground`: the escape sequence printed. -/
def setBackground (endpoint : String) : List Event :=
  if strings.HasPrefix endpoint "pro" then [.print "\x1b]Ph501010\x1b\\"]
  else [.print "\x1b]Ph403010\x1b\\"]

/-- Go `rdsCleanup`.  `started` tells whether `tunnel.Start()` succeeded;
otherwise `tunnel.Process` is nil and the call to `Kill` panics. -/
def rdsCleanup (started : Bool) : List Event × Option Abort :=
  if started then ([.print "\x1b]Ph103010\x1b\\", .kill], none)
  else ([.print "\x1b]Ph103010\x1b\\"],
    some (.panic "invalid memory address or nil pointer dereference"))

/-- The readiness loop of `connectToRDSInstance` (lines 199-204), run for at
most `fuel` polls starting at poll number `n`.  The flag tells whether the
loop was left through `break`. -/
def waitForTunnel (dial : Nat → Bool) (port : Nat) : Nat → Nat → List Event × Bool
  | 0, _ => ([], false)
  | fuel + 1, n =>
    if dial n then ([.sleep, .dial port], true)
    else
      let r := waitForTunnel dial port fuel (n + 1)
      (.sleep :: .dial port :: r.1, r.2)

/-- Modelled from the spec: the helper `getEnvWithDefault` is declared in
another file; the locale variables are "defaulted to en_US.UTF-8 if unset in
the caller's environment". -/
def getEnvWithDefault (getenv : String → String) (key dflt : String) : String :=
  if getenv key = "" then dflt else getenv key

/-- The environment handed to the client (lines 206-231). -/
def clientEnv (getenv : String → String) (port : Nat) (rdsConfig : RDSConfiguration) :
    List String :=
  [ "PATH=" ++ getenv "PATH",
    "TERM=" ++ getenv "TERM",
    "EDITOR=" ++ getenv "EDITOR",
    "LC_ALL=" ++ getEnvWithDefault getenv "LC_ALL" "en_US.UTF-8",
    "LANG=" ++ getEnvWithDefault getenv "LANG" "en_US.UTF-8",
    "PGHOST=127.0.0.1",
    "PGPORT=" ++ toString port,
    "PGDATABASE=" ++ rdsConfig.Database,
    "PGUSER=" ++ rdsConfig.User,
    "PGPASSWORD=" ++ rdsConfig.Password,
    "DB_HOST=127.0.0.1",
    "DB_PORT=" ++ toString port,
    "DB_NAME=" ++ rdsConfig.Database,
    "DB_USER=" ++ rdsConfig.User,
    "DB_PASS=" ++ rdsConfig.Password,
    "DB_PASSWORD=" ++ rdsConfig.Password,
    "MYSQL_HOST=127.0.0.1",
    "MYSQL_TCP_PORT=" ++ toString port,
    "MYSQL_USER=" ++ rdsConfig.User,
    "MYSQL_DATABASE=" ++ rdsConfig.Database,
    "MYSQL_PWD=" ++ rdsConfig.Password ]

/-- Command selection of `connectToRDSInstance` (lines 233-248): the look-ups
performed and the resulting `command` and `args`. -/
def selectCommand (lookPath : String → Option String) (engine : EngineConfiguration)
    (args : List String) : List Event × Except Abort (String × List String) :=
  if args.length = 0 then
    match lookPath engine.Command with
    | some command => ([.lookPath engine.Command], .ok (command, args))
    | none =>
      match lookPath engine.CommandAlt with
      | some command =>
        ([.lookPath engine.Command, .lookPath engine.CommandAlt], .ok (command, args))
      | none =>
        ([.lookPath engine.Command, .lookPath engine.CommandAlt],
          .error (.fatal ("Install " ++ engine.Command ++ " and/or " ++
            engine.CommandAlt ++ ".")))
  else
    let args1 := if args[0]? = some "--" then args.drop 1 else args
    match args1 with
    | [] => ([], .error (.panic "index out of range [0] with length 0"))
    | command :: rest => ([], .ok (command, rest))

/-- The MySQL convenience arguments of `connectToRDSInstance` (lines 250-253).
`instanceEngine` is `*instance.Engine`. -/
def appendClientArgs (instanceEngine : String) (engine : EngineConfiguration)
    (rdsConfig : RDSConfiguration) (command : String) (args : List String) : List String :=
  let isDefaultCommand :=
    strings.Contains command engine.Command || strings.Contains command engine.CommandAlt
  if instanceEngine = "mysql" && isDefaultCommand then
    args ++ ["-u\x27" ++ rdsConfig.User ++ "\x27", rdsConfig.Database]
  else args

/-- Go `connectToRDSInstance`, with at most `fuel` polls of the readiness
loop: the events performed and how the call ends. -/
def connectToRDSInstance (w : World) (cfg : Configuration) (inst : DBInstance)
    (args : List String) (fuel : Nat) : List Event × Outcome :=
  let endpoint := inst.Address
  match getEnvironment cfg.Environments endpoint with
  | .error a => ([], .aborted a)
  | .ok environment =>
  let jump := environment.Jumphost
  match getRDSConfig cfg.RDS endpoint with
  | .error a => ([], .aborted a)
  | .ok rdsConfig =>
  let port := w.random
  let engine := getEngineConfiguration inst.Engine
  let tunnelPath := toString port ++ ":" ++ endpoint ++ ":" ++ toString engine.Port
  let t1 : List Event := [.tunnelStart tunnelPath jump]
  let ready := waitForTunnel w.dial port fuel 0
  if ready.2 = false then (t1 ++ ready.1, .waiting)
  else
  let env := clientEnv w.getenv port rdsConfig
  match selectCommand w.lookPath engine args with
  | (t3, .error a) => (t1 ++ ready.1 ++ t3, .aborted a)
  | (t3, .ok (command, args1)) =>
  let args2 := appendClientArgs inst.Engine engine rdsConfig command args1
  let t4 : List Event := setBackground endpoint ++ [.run command args2 env]
  let cleanup := rdsCleanup w.startErr.isNone
  match w.runErr, cleanup.2 with
  | _, some a => (t1 ++ ready.1 ++ t3 ++ t4 ++ cleanup.1, .aborted a)
  | some err, none => (t1 ++ ready.1 ++ t3 ++ t4 ++ cleanup.1, .aborted (.fatal err))
  | none, none => (t1 ++ ready.1 ++ t3 ++ t4 ++ cleanup.1, .returned)

/-- The query results of the region workers in the order the workers finish:
the first failed query ends the process through `log.Fatal(err)` (line 53),
otherwise every response reaches the collector. -/
def gatherReplies : List (Except String (List DBInstance)) →
    Except String (List (List DBInstance))
  | [] => .ok []
  | .error err :: _ => .error err
  | .ok resp :: rest =>
    match gatherReplies rest with
    | .error err => .error err
    | .ok replies => .ok (resp :: replies)

/-- Go `ConnectToRDSInstance`.  `arrivals` are the query results of the region
workers in the order they finish: the response of a region, or the error of
its query. -/
def ConnectToRDSInstance (sortSort : List DBInstance → List DBInstance) (w : World)
    (cfg : Configuration) (filter : String)
    (arrivals : List (Except String (List DBInstance))) (args : List String)
    (fuel : Nat) : List Event × Outcome :=
  match gatherReplies arrivals with
  | .error err => ([], .aborted (.fatal err))
  | .ok replies =>
  match selectInstance w (discover sortSort filter replies) with
  | (t, .error a) => (t, .aborted a)
  | (t, .ok inst) =>
    let r := connectToRDSInstance w cfg inst args fuel
    (t ++ r.1, r.2)

/-! ## Sample inputs -/

/-- A configuration with one jump host entry and one profile without an
explicit database, both for the prefix "app". -/
def sampleCfg : Configuration :=
  { Regions := ["us-east", "us-west"],
    Environments := [⟨"app", "jump.example.com"⟩],
    RDS := [⟨"app", "", "root", "secret"⟩] }

/-- A world in which the tunnel starts, the third poll connects, no client
program is installed and the picker returns its first item. -/
def sampleWorld : World :=
  { random := 41000,
    startErr := none,
    dial := fun n => decide (2 ≤ n),
    lookPath := fun _ => none,
    runErr := none,
    getenv := fun _ => "",
    promptRun := fun _ => (0, none) }

/-- A MySQL instance matched by `sampleCfg`. -/
def sampleInstance : DBInstance := ⟨"app-prod.abcdef.region.example.com", "mysql"⟩

/-- Whether an event is a run of the picker. -/
def Event.isPromptRun : Event → Bool
  | .promptRun _ => true
  | _ => false

/-- Number of picker runs among the events. -/
def promptRuns (t : List Event) : Nat :=
  (t.filter Event.isPromptRun).length

/-- Whether `command` names the program `name`: its last path element is
`name`.  This is the reading of "the program named mycli or mysql". -/
def namesProgram (command name : String) : Bool :=
  (strings.splitFrom '/' command.data []).getLast? = some name

/-! ## Facts about the string operations -/

theorem HasPrefix_iff (s p : String) :
    strings.HasPrefix s p = true ↔ p.data <+: s.data := by
  simp [strings.HasPrefix]

theorem containsFrom_iff (sub : List Char) (l : List Char) :
    strings.containsFrom sub l = true ↔ sub <:+: l := by
  induction l with
  | nil =>
    simp [strings.containsFrom]
  | cons c cs ih =>
    simp only [strings.containsFrom, Bool.or_eq_true, ih, List.isPrefixOf_iff_prefix]
    rw [List.infix_cons_iff]

theorem Contains_iff (s sub : String) :
    strings.Contains s sub = true ↔ sub.data <:+: s.data := by
  simp [strings.Contains, containsFrom_iff]

/-! ## Tunnel teardown -/

/-- C1: with no override arguments and neither client program on the search
path, `connectToRDSInstance` starts the tunnel, finds the port connectable,
looks both programs up and ends through `log.Fatalf` without a single call of
`tunnel.Process.Kill()`; on the two other exit paths of the same run (client
succeeds, client fails) the tunnel is killed exactly once. -/
theorem connectToRDSInstance_client_not_found_skips_cleanup :
    connectToRDSInstance sampleWorld sampleCfg sampleInstance [] 10 =
      ([.tunnelStart "41000:app-prod.abcdef.region.example.com:3306" "jump.example.com",
        .sleep, .dial 41000, .sleep, .dial 41000, .sleep, .dial 41000,
        .lookPath "mycli", .lookPath "mysql"],
       .aborted (.fatal "Install mycli and/or mysql."))
    ∧ (connectToRDSInstance sampleWorld sampleCfg sampleInstance [] 10).1.count .kill = 0
    ∧ (connectToRDSInstance { sampleWorld with lookPath := fun _ => some "/usr/bin/mycli" }
        sampleCfg sampleInstance [] 10).1.count .kill = 1
    ∧ (connectToRDSInstance
        { sampleWorld with lookPath := fun _ => some "/usr/bin/mycli", runErr := some "exit status 1" }
        sampleCfg sampleInstance [] 10).1.count .kill = 1 := by
  refine ⟨by decide, by decide, by decide, by decide⟩

/-! ## MySQL convenience arguments -/

/-- C2, as stated, fails: for the engine "mysql" and the override command
"mysqldump", which is not the program mycli or mysql, the user flag and the
database name are appended all the same. -/
theorem appendClientArgs_override_mysqldump :
    selectCommand sampleWorld.lookPath (getEngineConfiguration "mysql")
        ["--", "mysqldump", "--all-databases"] =
      ([], .ok ("mysqldump", ["--all-databases"]))
    ∧ namesProgram "mysqldump" "mycli" = false
    ∧ namesProgram "mysqldump" "mysql" = false
    ∧ appendClientArgs "mysql" (getEngineConfiguration "mysql") ⟨"app", "prod", "root", "secret"⟩
        "mysqldump" ["--all-databases"] = ["--all-databases", "-u\x27root\x27", "prod"] := by
  refine ⟨by decide, by decide, by decide, by decide⟩

/-- C2, amended: the user flag and the database name are appended exactly
when the engine is "mysql" and the resolved command contains "mycli" or
"mysql" as a substring; otherwise the argument list is unchanged, so nothing
is appended for an engine other than "mysql". -/
theorem appendClientArgs_eq (instanceEngine : String) (rdsConfig : RDSConfiguration)
    (command : String) (args : List String) :
    appendClientArgs instanceEngine (getEngineConfiguration instanceEngine) rdsConfig
        command args =
      if instanceEngine = "mysql" ∧
          ("mycli".data <:+: command.data ∨ "mysql".data <:+: command.data) then
        args ++ ["-u\x27" ++ rdsConfig.User ++ "\x27", rdsConfig.Database]
      else args := by
  unfold appendClientArgs getEngineConfiguration
  by_cases h : instanceEngine = "mysql"
  · subst h
    simp only [if_true, true_and, Bool.and_eq_true, Bool.or_eq_true, decide_eq_true_eq,
      Contains_iff]
  · simp [h]

/-! ## Default database -/

theorem splitFrom_head (sep : Char) (l cur : List Char) :
    ∃ first rest, strings.splitFrom sep l cur = first :: rest := by
  induction l generalizing cur with
  | nil => exact ⟨_, _, rfl⟩
  | cons c cs ih =>
    unfold strings.splitFrom
    split
    · exact ⟨_, _, rfl⟩
    · exact ih (c :: cur)

/-- The part of the default database rule that holds: when the first matching
profile has an empty database and the address has a second "-" segment `seg`,
`getRDSConfig` returns that profile with the database set to the part of
`seg` before its first "." if `seg` is longer than one byte, and unchanged
otherwise. -/
theorem getRDSConfig_derives_database (profiles : List RDSConfiguration) (address : String)
    (i : Nat) (hi : i < profiles.length)
    (hmatch : profiles[i].Prefix.data <+: address.data)
    (hfirst : ∀ (j : Nat) (hj : j < i), ¬ (profiles[j].Prefix.data <+: address.data))
    (hempty : profiles[i].Database = "")
    (seg : String) (hseg : (strings.Split address '-')[1]? = some seg) :
    getRDSConfig profiles address =
      .ok { profiles[i] with
        Database := if len seg > 1 then ((strings.Split seg '.')[0]?).getD "" else "" } := by
  induction profiles generalizing i with
  | nil => simp at hi
  | cons p rest ih =>
    cases i with
    | zero =>
      have hp : p.Prefix.data <+: address.data := by simpa using hmatch
      have he : p.Database = "" := by simpa using hempty
      obtain ⟨first, more, hsplit⟩ := splitFrom_head '.' seg.data []
      unfold getRDSConfig
      simp only [HasPrefix_iff, hp, if_true, he, hseg, List.getElem_cons_zero]
      split
      · simp [strings.Split, hsplit]
      · cases p
        simp_all
    | succ k =>
      have hp : ¬ p.Prefix.data <+: address.data := by
        simpa using hfirst 0 (Nat.succ_pos k)
      have hk : k < rest.length := by simpa using hi
      unfold getRDSConfig
      simp only [HasPrefix_iff, hp, if_false]
      have := ih k hk (by simpa using hmatch)
        (fun j hj => by simpa using hfirst (j + 1) (Nat.succ_lt_succ hj))
        (by simpa using hempty)
      simpa using this

/-- C3: for the address of the claim the derived database is "prod"; for an
address without any "-", matched by a profile with an empty database,
`getRDSConfig` does not return: the index `[1]` into the one-segment split
panics. -/
theorem getRDSConfig_no_dash_panics :
    getRDSConfig [⟨"mydb", "", "root", "secret"⟩] "mydb-prod.abcdef.region.example.com" =
      .ok ⟨"mydb", "prod", "root", "secret"⟩
    ∧ getRDSConfig [⟨"mydb", "", "root", "secret"⟩] "mydb.abcdef.region.example.com" =
      .error (.panic "index out of range [1] with length 1") := by
  refine ⟨by decide, by decide⟩

/-! ## Command selection -/

/-- C4: for the override list that holds only "--", command selection removes
the separator and then panics on indexing the empty remainder, whatever the
engine and the search path. -/
theorem selectCommand_lone_separator_panics (lookPath : String → Option String)
    (engine : EngineConfiguration) :
    selectCommand lookPath engine ["--"] =
      ([], .error (.panic "index out of range [0] with length 0")) := by
  rfl

/-! ## Tunnel start failure -/

/-- C5: when `tunnel.Start()` fails the error is not looked at: the readiness
loop is entered all the same.  With nothing listening on the port the run is
still polling after any number of polls (here five); with another listener on
the port the client is launched. -/
theorem connectToRDSInstance_start_error_ignored :
    connectToRDSInstance
        { sampleWorld with startErr := some "exec: ssh: not found", dial := fun _ => false }
        sampleCfg sampleInstance ["psql"] 5 =
      ([.tunnelStart "41000:app-prod.abcdef.region.example.com:3306" "jump.example.com",
        .sleep, .dial 41000, .sleep, .dial 41000, .sleep, .dial 41000,
        .sleep, .dial 41000, .sleep, .dial 41000], .waiting)
    ∧ Event.dial 41000 ∈ (connectToRDSInstance
        { sampleWorld with startErr := some "exec: ssh: not found", dial := fun _ => true }
        sampleCfg sampleInstance ["psql"] 5).1
    ∧ (∃ env, Event.run "psql" [] env ∈ (connectToRDSInstance
        { sampleWorld with startErr := some "exec: ssh: not found", dial := fun _ => true }
        sampleCfg sampleInstance ["psql"] 5).1) := by
  refine ⟨by decide, by decide, ?_⟩
  exact ⟨clientEnv (fun _ => "") 41000 ⟨"app", "prod", "root", "secret"⟩, by decide⟩

/-! ## Jump host lookup -/

theorem getEnvironment_skip (e : Environment) (rest : List Environment) (address : String)
    (h : ¬ e.Prefix.data <+: address.data) :
    getEnvironment (e :: rest) address = getEnvironment rest address := by
  simp [getEnvironment, HasPrefix_iff, h]

theorem getEnvironment_hit (e : Environment) (rest : List Environment) (address : String)
    (h : e.Prefix.data <+: address.data) :
    getEnvironment (e :: rest) address = .ok e := by
  simp [getEnvironment, HasPrefix_iff, h]

/-- C6: `getEnvironment` returns the entry at the smallest index whose prefix
is a prefix of the address, whatever entries follow it, and it ends in the
fatal error "No environment matched ..." exactly when no entry's prefix is a
prefix of the address. -/
theorem getEnvironment_first_match (envs : List Environment) (address : String) :
    (∀ (i : Nat) (hi : i < envs.length),
        envs[i].Prefix.data <+: address.data →
        (∀ (j : Nat) (hj : j < i), ¬ (envs[j].Prefix.data <+: address.data)) →
        getEnvironment envs address = .ok envs[i])
    ∧ ((∀ e ∈ envs, ¬ e.Prefix.data <+: address.data) ↔
        getEnvironment envs address =
          .error (.fatal ("No environment matched " ++ address ++
            ", please check your configuration. Run \x27bub config\x27.")))
    ∧ ((∀ e ∈ envs, ¬ e.Prefix.data <+: address.data) ↔
        ∃ a, getEnvironment envs address = .error a) := by
  induction envs with
  | nil =>
    refine ⟨?_, ?_, ?_⟩
    · intro i hi
      simp at hi
    · simp [getEnvironment]
    · simp [getEnvironment]
  | cons e rest ih =>
    obtain ⟨ih1, ih2, ih3⟩ := ih
    by_cases h : e.Prefix.data <+: address.data
    · refine ⟨?_, ?_, ?_⟩
      · intro i hi hp hmin
        cases i with
        | zero => simpa using getEnvironment_hit e rest address h
        | succ k =>
          exact absurd h (by simpa using hmin 0 (Nat.succ_pos k))
      · rw [getEnvironment_hit e rest address h]
        constructor
        · intro hall
          exact absurd h (hall e (List.mem_cons_self e rest))
        · intro hc
          cases hc
      · rw [getEnvironment_hit e rest address h]
        constructor
        · intro hall
          exact absurd h (hall e (List.mem_cons_self e rest))
        · rintro ⟨a, ha⟩
          cases ha
    · refine ⟨?_, ?_, ?_⟩
      · intro i hi hp hmin
        cases i with
        | zero => exact absurd (by simpa using hp) h
        | succ k =>
          rw [getEnvironment_skip e rest address h]
          have hk : k < rest.length := by simpa using hi
          have := ih1 k hk (by simpa using hp) (fun j hj => by
            simpa using hmin (j + 1) (Nat.succ_lt_succ hj))
          simpa using this
      · rw [getEnvironment_skip e rest address h, ← ih2]
        simp [h]
      · rw [getEnvironment_skip e rest address h, ← ih3]
        simp [h]

/-- C6 at a concrete input: the earlier, shorter prefix "app" wins over the
later, longer prefix "app-prod". -/
theorem getEnvironment_first_match_witness :
    getEnvironment [⟨"db", "jump0"⟩, ⟨"app", "jump1"⟩, ⟨"app-prod", "jump2"⟩]
      "app-prod.abcdef.region.example.com" = .ok ⟨"app", "jump1"⟩ := by
  refine (getEnvironment_first_match [⟨"db", "jump0"⟩, ⟨"app", "jump1"⟩, ⟨"app-prod", "jump2"⟩]
    "app-prod.abcdef.region.example.com").1 1 (Nat.le_of_ble_eq_true rfl) ?_ ?_
  · decide
  · intro j hj
    match j, hj with
    | 0, _ =>
      exact (by decide : ¬ ("db".data <+: "app-prod.abcdef.region.example.com".data))

/-! ## Sorting by address -/

theorem Less_eq_false_iff (a b : DBInstance) :
    DBInstances.Less a b = false ↔ b.Address.data ≤ a.Address.data := by
  simp [DBInstances.Less]

theorem sink_perm (x : DBInstance) (l : List DBInstance) : (sink x l).Perm (x :: l) := by
  induction l with
  | nil => simp [sink]
  | cons y ys ih =>
    unfold sink
    split
    · exact (List.Perm.cons y ih).trans (List.Perm.swap x y ys)
    · exact List.Perm.refl _

theorem sink_ordered (x : DBInstance) (l : List DBInstance)
    (h : l.Pairwise (fun a b => DBInstances.Less a b = false)) :
    (sink x l).Pairwise (fun a b => DBInstances.Less a b = false) := by
  induction l with
  | nil => simp [sink]
  | cons y ys ih =>
    rw [List.pairwise_cons] at h
    obtain ⟨hy, hys⟩ := h
    unfold sink
    split
    · rename_i hlt
      rw [List.pairwise_cons]
      refine ⟨?_, ih hys⟩
      intro z hz
      rcases (List.mem_cons.mp ((sink_perm x ys).mem_iff.mp hz)) with rfl | hz
      · rw [Less_eq_false_iff]
        simp only [DBInstances.Less, decide_eq_true_eq] at hlt
        exact le_of_lt hlt
      · exact hy z hz
    · rename_i hnlt
      have hxy : DBInstances.Less x y = false := by simpa using hnlt
      rw [List.pairwise_cons]
      refine ⟨?_, List.pairwise_cons.mpr ⟨hy, hys⟩⟩
      intro z hz
      rcases List.mem_cons.mp hz with rfl | hz
      · exact hxy
      · rw [Less_eq_false_iff] at hxy ⊢
        have := hy z hz
        rw [Less_eq_false_iff] at this
        exact le_trans this hxy

theorem insertionSortFrom_perm (done l : List DBInstance) :
    (insertionSortFrom done l).Perm (done ++ l) := by
  induction l generalizing done with
  | nil => simp [insertionSortFrom]
  | cons x rest ih =>
    unfold insertionSortFrom
    refine (ih (sink x done)).trans ?_
    refine ((sink_perm x done).append_right rest).trans ?_
    exact List.perm_middle.symm

theorem insertionSortFrom_ordered (done l : List DBInstance)
    (h : done.Pairwise (fun a b => DBInstances.Less a b = false)) :
    (insertionSortFrom done l).Pairwise (fun a b => DBInstances.Less b a = false) := by
  induction l generalizing done with
  | nil => simpa [insertionSortFrom, List.pairwise_reverse] using h
  | cons x rest ih =>
    unfold insertionSortFrom
    exact ih (sink x done) (sink_ordered x done h)

/-- The insertion sort of the library meets the contract of `sort.Sort`. -/
theorem insertionSort_contract : SortContract insertionSort where
  perm l := by simpa [insertionSort] using insertionSortFrom_perm [] l
  ordered l := insertionSortFrom_ordered [] l List.Pairwise.nil

theorem collect_eq_flatten (arrivals : List (List DBInstance)) :
    collect arrivals = arrivals.flatten := by
  have h : ∀ (acc : List DBInstance) (ls : List (List DBInstance)),
      ls.foldl (fun instances rows => instances ++ rows) acc = acc ++ ls.flatten := by
    intro acc ls
    induction ls generalizing acc with
    | nil => simp
    | cons r rs ih => simp [ih]
  simpa [collect] using h [] arrivals

theorem discover_perm (sortSort : List DBInstance → List DBInstance)
    (hs : SortContract sortSort) (filter : String) (replies : List (List DBInstance)) :
    (discover sortSort filter replies).Perm
      (replies.flatten.filter (fun i => strings.Contains i.Address filter)) := by
  unfold discover
  refine (hs.perm _).trans ?_
  rw [collect_eq_flatten, List.filter_flatten]
  exact List.Perm.of_eq rfl

theorem discover_addresses_sorted (sortSort : List DBInstance → List DBInstance)
    (hs : SortContract sortSort) (filter : String) (replies : List (List DBInstance)) :
    ((discover sortSort filter replies).map (fun i => i.Address.data)).Sorted (· ≤ ·) := by
  unfold List.Sorted
  rw [List.pairwise_map]
  refine List.Pairwise.imp ?_ (hs.ordered _)
  intro a b hab
  exact (Less_eq_false_iff b a).mp hab

theorem map_eq_of_injOn {α β : Type} (f : α → β) :
    ∀ (l₁ l₂ : List α), l₁.map f = l₂.map f →
      (∀ x ∈ l₁, ∀ y ∈ l₂, f x = f y → x = y) → l₁ = l₂
  | [], [], _, _ => rfl
  | [], _ :: _, h, _ => by simp at h
  | _ :: _, [], h, _ => by simp at h
  | a :: as, b :: bs, h, hinj => by
    simp only [List.map_cons, List.cons.injEq] at h
    have hab : a = b := hinj a (List.mem_cons_self a as) b (List.mem_cons_self b bs) h.1
    have htl : as = bs := map_eq_of_injOn f as bs h.2 (fun x hx y hy hxy =>
      hinj x (List.mem_cons_of_mem a hx) y (List.mem_cons_of_mem b hy) hxy)
    rw [hab, htl]

/-- C7, as stated, fails: two regions each return one record with the address
"db.example.com", one MySQL and one PostgreSQL.  `sort.Sort` on two records is
the insertion sort, which leaves records of equal address in arrival order, so
the two arrival orders give two different final lists. -/
theorem discover_equal_address_arrival_order :
    discover insertionSort "db"
        [[⟨"db.example.com", "mysql"⟩], [⟨"db.example.com", "postgres"⟩]] =
      [⟨"db.example.com", "mysql"⟩, ⟨"db.example.com", "postgres"⟩]
    ∧ discover insertionSort "db"
        [[⟨"db.example.com", "postgres"⟩], [⟨"db.example.com", "mysql"⟩]] =
      [⟨"db.example.com", "postgres"⟩, ⟨"db.example.com", "mysql"⟩]
    ∧ discover insertionSort "db"
        [[⟨"db.example.com", "mysql"⟩], [⟨"db.example.com", "postgres"⟩]] ≠
      discover insertionSort "db"
        [[⟨"db.example.com", "postgres"⟩], [⟨"db.example.com", "mysql"⟩]] := by
  refine ⟨by decide, by decide, by decide⟩

/-- C7, amended: for any two arrival orders of the same replies, and any
`sort.Sort` that meets its contract, the two final lists hold the same records
the same number of times and carry the same address at every position; they
are identical whenever records of the replies with equal address are equal.
The relative order of differing records with one address is left open. -/
theorem discover_arrival_order (sortSort : List DBInstance → List DBInstance)
    (hs : SortContract sortSort) (filter : String)
    (replies₁ replies₂ : List (List DBInstance)) (harr : replies₁.Perm replies₂) :
    (discover sortSort filter replies₁).Perm (discover sortSort filter replies₂)
    ∧ (discover sortSort filter replies₁).map (fun i => i.Address) =
        (discover sortSort filter replies₂).map (fun i => i.Address)
    ∧ ((∀ x ∈ replies₁.flatten, ∀ y ∈ replies₁.flatten, x.Address = y.Address → x = y) →
        discover sortSort filter replies₁ = discover sortSort filter replies₂) := by
  have hperm : (discover sortSort filter replies₁).Perm (discover sortSort filter replies₂) :=
    (discover_perm sortSort hs filter replies₁).trans
      ((List.Perm.filter _ harr.flatten).trans (discover_perm sortSort hs filter replies₂).symm)
  have hdata : (discover sortSort filter replies₁).map (fun i => i.Address.data) =
      (discover sortSort filter replies₂).map (fun i => i.Address.data) :=
    List.eq_of_perm_of_sorted (hperm.map _)
      (discover_addresses_sorted sortSort hs filter replies₁)
      (discover_addresses_sorted sortSort hs filter replies₂)
  have haddr : (discover sortSort filter replies₁).map (fun i => i.Address) =
      (discover sortSort filter replies₂).map (fun i => i.Address) := by
    have hinj : Function.Injective String.data := fun a b hab => String.ext hab
    apply List.map_injective_iff.mpr hinj
    simpa [List.map_map, Function.comp_def] using hdata
  refine ⟨hperm, haddr, ?_⟩
  intro huniq
  have hsub : ∀ x ∈ discover sortSort filter replies₁, x ∈ replies₁.flatten := fun x hx =>
    (List.mem_filter.mp ((discover_perm sortSort hs filter replies₁).mem_iff.mp hx)).1
  apply map_eq_of_injOn (fun i => i.Address) _ _ haddr
  intro x hx y hy hxy
  exact huniq x (hsub x hx) y (hsub y (hperm.mem_iff.mpr hy)) hxy

/-- C7, amended, at a concrete input: two regions with differing addresses
reply in either order and the insertion sort of the library produces the same
list. -/
theorem discover_arrival_order_witness :
    discover insertionSort "app"
        [[⟨"app-b.example.com", "mysql"⟩], [⟨"app-a.example.com", "postgres"⟩]] =
      discover insertionSort "app"
        [[⟨"app-a.example.com", "postgres"⟩], [⟨"app-b.example.com", "mysql"⟩]] :=
  (discover_arrival_order insertionSort insertionSort_contract "app"
    [[⟨"app-b.example.com", "mysql"⟩], [⟨"app-a.example.com", "postgres"⟩]]
    [[⟨"app-a.example.com", "postgres"⟩], [⟨"app-b.example.com", "mysql"⟩]]
    (List.Perm.swap _ _ [])).2.2 (by decide)

/-- C8: whatever the arrival order of the replies, and for any `sort.Sort`
that meets its contract, the list produced by discovery is sorted by address
ascending in lexicographic order: for positions `i < j` the address at `i` is
at most the address at `j`. -/
theorem discover_sorted (sortSort : List DBInstance → List DBInstance)
    (hs : SortContract sortSort) (filter : String) (replies : List (List DBInstance))
    (i j : Nat) (hij : i < j) (hj : j < (discover sortSort filter replies).length) :
    ((discover sortSort filter replies)[i]).Address.data ≤
      ((discover sortSort filter replies)[j]).Address.data := by
  have h := List.pairwise_iff_getElem.mp (hs.ordered (collect (replies.map (filterRows filter))))
    i j (Nat.lt_trans hij hj) hj hij
  exact (Less_eq_false_iff _ _).mp h

/-- C8 at a concrete input: replies arriving out of order, sorted by the
insertion sort of the library. -/
theorem discover_sorted_witness :
    discover insertionSort "example"
        [[⟨"app-b.example.com", "mysql"⟩, ⟨"zzz.example.com", "mysql"⟩],
          [⟨"app-a.example.com", "postgres"⟩]] =
      [⟨"app-a.example.com", "postgres"⟩, ⟨"app-b.example.com", "mysql"⟩,
        ⟨"zzz.example.com", "mysql"⟩]
    ∧ "app-b.example.com".data ≤ "zzz.example.com".data :=
  ⟨by decide,
    discover_sorted insertionSort insertionSort_contract "example"
      [[⟨"app-b.example.com", "mysql"⟩, ⟨"zzz.example.com", "mysql"⟩],
        [⟨"app-a.example.com", "postgres"⟩]]
      1 2 (Nat.le_of_ble_eq_true rfl) (Nat.le_of_ble_eq_true rfl)⟩

/-- C9: for every filter and every collection of replies, and any `sort.Sort`
that meets its contract, every record of the produced list has an address that
contains the filter as a substring, and every record occurs in the produced
list as many times as in the replies if its address contains the filter, and
not at all otherwise. -/
theorem discover_exact (sortSort : List DBInstance → List DBInstance)
    (hs : SortContract sortSort) (filter : String) (replies : List (List DBInstance)) :
    (∀ x ∈ discover sortSort filter replies, filter.data <:+: x.Address.data)
    ∧ (∀ x : DBInstance, (discover sortSort filter replies).count x =
        if filter.data <:+: x.Address.data then replies.flatten.count x else 0) := by
  have hperm := discover_perm sortSort hs filter replies
  constructor
  · intro x hx
    have := (List.mem_filter.mp (hperm.mem_iff.mp hx)).2
    exact (Contains_iff _ _).mp this
  · intro x
    rw [hperm.count_eq x]
    split
    · rename_i hc
      exact List.count_filter ((Contains_iff _ _).mpr hc)
    · rename_i hc
      rw [List.count_eq_zero]
      intro hx
      exact hc ((Contains_iff _ _).mp (List.mem_filter.mp hx).2)

/-- C9 at a concrete input: the record returned twice is kept twice, the one
whose address lacks the filter is dropped. -/
theorem discover_exact_witness :
    (discover insertionSort "app"
        [[⟨"app-b.example.com", "mysql"⟩, ⟨"zzz.example.com", "mysql"⟩],
          [⟨"app-b.example.com", "mysql"⟩]]).count ⟨"app-b.example.com", "mysql"⟩ = 2 := by
  have h := (discover_exact insertionSort insertionSort_contract "app"
    [[⟨"app-b.example.com", "mysql"⟩, ⟨"zzz.example.com", "mysql"⟩],
      [⟨"app-b.example.com", "mysql"⟩]]).2 ⟨"app-b.example.com", "mysql"⟩
  rw [h]
  decide

/-! ## Selection by count -/

theorem gatherReplies_ok (replies : List (List DBInstance)) :
    gatherReplies (replies.map Except.ok) = .ok replies := by
  induction replies with
  | nil => rfl
  | cons r rs ih => simp [gatherReplies, ih]

theorem promptRuns_append (s t : List Event) :
    promptRuns (s ++ t) = promptRuns s + promptRuns t := by
  simp [promptRuns]

theorem promptRuns_waitForTunnel (dial : Nat → Bool) (port fuel n : Nat) :
    promptRuns (waitForTunnel dial port fuel n).1 = 0 := by
  induction fuel generalizing n with
  | zero => rfl
  | succ k ih =>
    unfold waitForTunnel
    split
    · rfl
    · have := ih (n + 1)
      simpa [promptRuns, Event.isPromptRun] using this

theorem promptRuns_selectCommand (lookPath : String → Option String)
    (engine : EngineConfiguration) (args : List String) :
    promptRuns (selectCommand lookPath engine args).1 = 0 := by
  unfold selectCommand
  split
  · split
    · rfl
    · split <;> rfl
  · dsimp only
    split <;> rfl

theorem promptRuns_setBackground (endpoint : String) :
    promptRuns (setBackground endpoint) = 0 := by
  unfold setBackground
  split <;> rfl

theorem promptRuns_rdsCleanup (started : Bool) : promptRuns (rdsCleanup started).1 = 0 := by
  cases started <;> rfl

theorem promptRuns_singleton_tunnelStart (p j : String) :
    promptRuns [Event.tunnelStart p j] = 0 := rfl

theorem promptRuns_singleton_run (c : String) (a e : List String) :
    promptRuns [Event.run c a e] = 0 := rfl

/-- The picker is never run inside `connectToRDSInstance`. -/
theorem promptRuns_connectToRDSInstance (w : World) (cfg : Configuration) (inst : DBInstance)
    (args : List String) (fuel : Nat) :
    promptRuns (connectToRDSInstance w cfg inst args fuel).1 = 0 := by
  have hsel := promptRuns_selectCommand w.lookPath (getEngineConfiguration inst.Engine) args
  unfold connectToRDSInstance
  dsimp only
  split
  · rfl
  · split
    · rfl
    · split
      · simp only [promptRuns_append, promptRuns_waitForTunnel,
          promptRuns_singleton_tunnelStart]
      · split
        · rename_i hs
          rw [hs] at hsel
          simp only [promptRuns_append, promptRuns_waitForTunnel,
            promptRuns_singleton_tunnelStart]
          simpa using hsel
        · rename_i hs
          rw [hs] at hsel
          split <;>
            simp only [promptRuns_append, promptRuns_waitForTunnel,
              promptRuns_singleton_tunnelStart, promptRuns_singleton_run,
              promptRuns_setBackground, promptRuns_rdsCleanup] <;>
            simpa using hsel

theorem ConnectToRDSInstance_of_replies (sortSort : List DBInstance → List DBInstance)
    (w : World) (cfg : Configuration) (filter : String) (replies : List (List DBInstance))
    (args : List String) (fuel : Nat) :
    ConnectToRDSInstance sortSort w cfg filter (replies.map Except.ok) args fuel =
      match selectInstance w (discover sortSort filter replies) with
      | (t, .error a) => (t, .aborted a)
      | (t, .ok inst) =>
        (t ++ (connectToRDSInstance w cfg inst args fuel).1,
          (connectToRDSInstance w cfg inst args fuel).2) := by
  unfold ConnectToRDSInstance
  rw [gatherReplies_ok]

theorem selectInstance_many (w : World) (instances : List DBInstance)
    (h : 2 ≤ instances.length) :
    selectInstance w instances =
      match instances[(w.promptRun (pickerItems instances)).1]?,
          (w.promptRun (pickerItems instances)).2 with
      | none, _ => ([.promptRun (pickerItems instances)], .error (.panic "index out of range"))
      | some _, some err =>
        ([.promptRun (pickerItems instances)],
          .error (.fatal ("Failed to pick instance: " ++ err)))
      | some inst, none => ([.promptRun (pickerItems instances)], .ok inst) := by
  unfold selectInstance pickRDSInstance
  have h0 : ¬ instances.length = 0 := by omega
  have h1 : ¬ instances.length = 1 := by omega
  simp only [h0, h1, if_false]
  cases instances[(w.promptRun (pickerItems instances)).1]? with
  | none => rfl
  | some inst =>
    cases (w.promptRun (pickerItems instances)).2 with
    | none => rfl
    | some err => rfl

/-- C10: selection in `ConnectToRDSInstance` goes by the number of candidates
discovery produced.  With none the run ends in the fatal error "No instances
found." with no event performed.  With exactly one the run is the connection
to that candidate and the picker is not run.  With two or more the picker is
run exactly once; if it returns index `i` without error the run continues as
the connection to candidate `i`, and if it reports an error the run ends right
after the picker, aborted (through `log.Fatalf` when the index returned with
the error is in range), with no connection. -/
theorem ConnectToRDSInstance_selects_by_count
    (sortSort : List DBInstance → List DBInstance) (w : World) (cfg : Configuration)
    (filter : String) (replies : List (List DBInstance)) (args : List String) (fuel : Nat) :
    (discover sortSort filter replies = [] →
      ConnectToRDSInstance sortSort w cfg filter (replies.map Except.ok) args fuel =
        ([], .aborted (.fatal "No instances found.")))
    ∧ (∀ x : DBInstance, discover sortSort filter replies = [x] →
      ConnectToRDSInstance sortSort w cfg filter (replies.map Except.ok) args fuel =
          connectToRDSInstance w cfg x args fuel
        ∧ promptRuns
          (ConnectToRDSInstance sortSort w cfg filter (replies.map Except.ok) args fuel).1 = 0)
    ∧ (2 ≤ (discover sortSort filter replies).length →
      promptRuns
          (ConnectToRDSInstance sortSort w cfg filter (replies.map Except.ok) args fuel).1 = 1
      ∧ (∀ (i : Nat) (hi : i < (discover sortSort filter replies).length),
          w.promptRun (pickerItems (discover sortSort filter replies)) = (i, none) →
          ConnectToRDSInstance sortSort w cfg filter (replies.map Except.ok) args fuel =
            (.promptRun (pickerItems (discover sortSort filter replies)) ::
                (connectToRDSInstance w cfg (discover sortSort filter replies)[i] args fuel).1,
              (connectToRDSInstance w cfg (discover sortSort filter replies)[i] args fuel).2))
      ∧ (∀ (i : Nat) (err : String),
          w.promptRun (pickerItems (discover sortSort filter replies)) = (i, some err) →
          ∃ a : Abort,
            ConnectToRDSInstance sortSort w cfg filter (replies.map Except.ok) args fuel =
              ([.promptRun (pickerItems (discover sortSort filter replies))], .aborted a)
            ∧ (i < (discover sortSort filter replies).length →
                a = .fatal ("Failed to pick instance: " ++ err)))) := by
  rw [ConnectToRDSInstance_of_replies]
  generalize discover sortSort filter replies = cands
  refine ⟨?_, ?_, ?_⟩
  · intro h
    subst h
    rfl
  · intro x h
    subst h
    refine ⟨?_, ?_⟩
    · simp [selectInstance]
    · simpa [selectInstance] using promptRuns_connectToRDSInstance w cfg x args fuel
  · intro h
    rw [selectInstance_many w cands h]
    refine ⟨?_, ?_, ?_⟩
    · cases cands[(w.promptRun (pickerItems cands)).1]? with
      | none => rfl
      | some inst =>
        cases (w.promptRun (pickerItems cands)).2 with
        | some err => rfl
        | none =>
          have := promptRuns_connectToRDSInstance w cfg inst args fuel
          simp only [List.singleton_append]
          simpa [promptRuns, Event.isPromptRun, List.filter_cons] using this
    · intro i hi hp
      simp [hp, List.getElem?_eq_getElem hi]
    · intro i err hp
      rw [hp]
      by_cases hi : i < cands.length
      · rw [List.getElem?_eq_getElem hi]
        exact ⟨_, rfl, fun _ => rfl⟩
      · rw [List.getElem?_eq_none (Nat.le_of_not_lt hi)]
        exact ⟨_, rfl, fun h => absurd h hi⟩

/-- C10 at a concrete input: two candidates, the picker returns index 1, and
the run is the picker followed by the connection to the second candidate. -/
theorem ConnectToRDSInstance_selects_by_count_witness :
    2 ≤ (discover insertionSort "app"
        [[⟨"app-b.example.com", "mysql"⟩], [⟨"app-a.example.com", "postgres"⟩]]).length
    ∧ promptRuns (ConnectToRDSInstance insertionSort { sampleWorld with promptRun := fun _ => (1, none) }
        sampleCfg "app"
        ([[⟨"app-b.example.com", "mysql"⟩], [⟨"app-a.example.com", "postgres"⟩]].map Except.ok)
        [] 10).1 = 1 :=
  ⟨by decide,
    ((ConnectToRDSInstance_selects_by_count insertionSort
      { sampleWorld with promptRun := fun _ => (1, none) } sampleCfg "app"
      [[⟨"app-b.example.com", "mysql"⟩], [⟨"app-a.example.com", "postgres"⟩]] [] 10).2.2
      (by decide)).1⟩

/-! ## Engine profile -/

/-- C11: `getEngineConfiguration` returns port 3306 with the clients "mycli"
and "mysql" when the engine string is exactly "mysql", and port 5432 with the
clients "pgcli" and "psql" for every other string; among the others are
"postgres", "aurora-postgresql", the empty string and "MySQL". -/
theorem getEngineConfiguration_table (engine : String) :
    (engine = "mysql" →
      getEngineConfiguration engine =
        { Port := 3306, Command := "mycli", CommandAlt := "mysql" })
    ∧ (engine ≠ "mysql" →
      getEngineConfiguration engine =
        { Port := 5432, Command := "pgcli", CommandAlt := "psql" })
    ∧ getEngineConfiguration "postgres" =
        { Port := 5432, Command := "pgcli", CommandAlt := "psql" }
    ∧ getEngineConfiguration "aurora-postgresql" =
        { Port := 5432, Command := "pgcli", CommandAlt := "psql" }
    ∧ getEngineConfiguration "" =
        { Port := 5432, Command := "pgcli", CommandAlt := "psql" }
    ∧ getEngineConfiguration "MySQL" =
        { Port := 5432, Command := "pgcli", CommandAlt := "psql" } := by
  refine ⟨?_, ?_, by decide, by decide, by decide, by decide⟩
  · intro h
    subst h
    rfl
  · intro h
    unfold getEngineConfiguration
    rw [if_neg h]

/-- C11 at a concrete input: "aurora-mysql" is not "mysql" and so gets the
PostgreSQL defaults. -/
theorem getEngineConfiguration_table_witness :
    "aurora-mysql" ≠ "mysql"
    ∧ getEngineConfiguration "aurora-mysql" =
        { Port := 5432, Command := "pgcli", CommandAlt := "psql" } :=
  ⟨by decide, (getEngineConfiguration_table "aurora-mysql").2.1 (by decide)⟩

end Bub
